import Mathlib

/-!
Verification of the tabular filter-edit-reconcile workflow of
`src/app1.py` (a task-management dashboard over a spreadsheet).

Cells are modelled as strings; a `Row` is an ordered association of
column name to cell value, exactly as a pandas row is addressed by
column name in the script.
-/

/-- A scalar cell value.  The script compares cells only for equality
and membership, so strings suffice as the carrier. -/
abbrev Value := String

/-- A row: an ordered mapping from column name to cell value. -/
abbrev Row := List (String × Value)

/-- Cell access by column name, as `row["col"]` in the script.  A missing
column yields the empty string (the script only reads columns it has
ensured exist). -/
def getVal (r : Row) (c : String) : Value :=
  ((r.find? (fun p => p.1 = c)).map Prod.snd).getD ""

/-- One sheet of the workbook: the pandas DataFrame of `src/app1.py`,
with its column list and its rows in load order. -/
structure Table where
  cols : List String
  rows : List Row
  deriving DecidableEq

/-- The uploaded workbook: `sheets_dict` of `src/app1.py` line 13, an
ordered mapping from sheet name to its table. -/
abbrev Workbook := List (String × Table)

/-- From `src/app1.py` lines 46-50: the sidebar filters.  Each of the two
multiselect lists, when non-empty, keeps only the rows whose value in
its column is a member of the list (`isin`); an empty list imposes no
constraint. -/
def filteredRows (assigneeFilter statusFilter : List Value) (rows : List Row) : List Row :=
  let r1 :=
    if assigneeFilter.isEmpty then rows
    else rows.filter (fun r => assigneeFilter.contains (getVal r "Assignee"))
  if statusFilter.isEmpty then r1
  else r1.filter (fun r => statusFilter.contains (getVal r "Status"))

theorem filteredRows_eq_filter (af sf : List Value) (rows : List Row) :
    filteredRows af sf rows =
      rows.filter (fun r =>
        (af.isEmpty || af.contains (getVal r "Assignee")) &&
        (sf.isEmpty || sf.contains (getVal r "Status"))) := by
  unfold filteredRows
  cases haf : af.isEmpty <;> cases hsf : sf.isEmpty <;>
    simp [List.filter_filter, List.filter_congr, Bool.and_comm]

/-- C1: applying the sidebar filters returns a subsequence of the rows in
original order; a row is included iff, for each filter list that is
non-empty, the value of the row in that column is a member of the list;
with both lists empty the result is exactly the original row sequence. -/
theorem C1_filter_subsequence_membership (af sf : List Value) (rows : List Row) :
    (filteredRows af sf rows).Sublist rows ∧
    (∀ r, r ∈ filteredRows af sf rows ↔
      r ∈ rows ∧ (af ≠ [] → getVal r "Assignee" ∈ af) ∧
        (sf ≠ [] → getVal r "Status" ∈ sf)) ∧
    filteredRows [] [] rows = rows := by
  refine ⟨?_, ?_, ?_⟩
  · rw [filteredRows_eq_filter]
    exact List.filter_sublist rows
  · intro r
    rw [filteredRows_eq_filter, List.mem_filter]
    simp [List.isEmpty_iff, and_assoc]
    tauto
  · simp [filteredRows]

/-- Witness for C1 at a concrete table and filter. -/
theorem C1_witness :
    (filteredRows ["bob"] []
        [[("Assignee", "bob"), ("Status", "Pending")],
         [("Assignee", "eve"), ("Status", "Completed")]]).Sublist
      [[("Assignee", "bob"), ("Status", "Pending")],
       [("Assignee", "eve"), ("Status", "Completed")]] ∧
    (∀ r, r ∈ filteredRows ["bob"] []
        [[("Assignee", "bob"), ("Status", "Pending")],
         [("Assignee", "eve"), ("Status", "Completed")]] ↔
      r ∈ [[("Assignee", "bob"), ("Status", "Pending")],
           [("Assignee", "eve"), ("Status", "Completed")]] ∧
        ((["bob"] : List Value) ≠ [] → getVal r "Assignee" ∈ (["bob"] : List Value)) ∧
        (([] : List Value) ≠ [] → getVal r "Status" ∈ ([] : List Value))) ∧
    filteredRows [] []
        [[("Assignee", "bob"), ("Status", "Pending")],
         [("Assignee", "eve"), ("Status", "Completed")]] =
      [[("Assignee", "bob"), ("Status", "Pending")],
       [("Assignee", "eve"), ("Status", "Completed")]] :=
  C1_filter_subsequence_membership ["bob"] []
    [[("Assignee", "bob"), ("Status", "Pending")],
     [("Assignee", "eve"), ("Status", "Completed")]]

/-- C8: the filter is idempotent: filtering an already filtered view with
the same selections returns it unchanged. -/
theorem C8_filter_idempotent (af sf : List Value) (rows : List Row) :
    filteredRows af sf (filteredRows af sf rows) = filteredRows af sf rows := by
  simp only [filteredRows_eq_filter, List.filter_filter]
  apply List.filter_congr
  intro r _
  exact Bool.and_self _

/-- Overwriting one cell of a row: every pair whose key is `c` gets the
value `v` (pandas column assignment under a row mask touches only the
named column). -/
def setCell (r : Row) (c : String) (v : Value) : Row :=
  r.map (fun p => if p.1 = c then (p.1, v) else p)

/-- From `src/app1.py` line 151: the Save Comment action.  The update
`df.loc[df["Task Name"] == task, "Comments"] = new_comment` sets the
Comments cell of every row whose Task Name equals the selected task and
leaves every other row untouched. -/
def saveComment (rows : List Row) (taskName : String) (newComment : Value) : List Row :=
  rows.map (fun r =>
    if getVal r "Task Name" = taskName then setCell r "Comments" newComment else r)

/-- Save Comment lifted to a table: the row update never touches the
column list. -/
def saveCommentT (t : Table) (taskName : String) (newComment : Value) : Table :=
  { cols := t.cols, rows := saveComment t.rows taskName newComment }

/-- An editing session: successive Save Comment actions, applied in
order to the selected sheet.  This is the edit set of the spec, keyed by
Task Name, with Comments the only editable column. -/
def reconcile (t : Table) (es : List (String × Value)) : Table :=
  es.foldl (fun acc e => saveCommentT acc e.1 e.2) t

/-- The effect of an editing session on one row, edit by edit. -/
def applyEdits (es : List (String × Value)) (r : Row) : Row :=
  es.foldl (fun rr e =>
    if getVal rr "Task Name" = e.1 then setCell rr "Comments" e.2 else rr) r

theorem getVal_cons (p : String × Value) (r : Row) (c : String) :
    getVal (p :: r) c = if p.1 = c then p.2 else getVal r c := by
  by_cases h : p.1 = c <;> simp [getVal, List.find?, h]

theorem setCell_cons (p : String × Value) (r : Row) (c : String) (v : Value) :
    setCell (p :: r) c v = (if p.1 = c then (p.1, v) else p) :: setCell r c v := by
  by_cases h : p.1 = c <;> simp [setCell, h]

theorem getVal_setCell_ne (r : Row) (c c' : String) (v : Value) (h : c' ≠ c) :
    getVal (setCell r c v) c' = getVal r c' := by
  induction r with
  | nil => rfl
  | cons p r ih =>
    rw [setCell_cons, getVal_cons, getVal_cons]
    by_cases hc : p.1 = c
    · have hne : p.1 ≠ c' := by
        rw [hc]
        exact fun hh => h hh.symm
      rw [if_pos hc]
      rw [show ((p.1, v) : String × Value).1 = p.1 from rfl] at *
      rw [if_neg hne, if_neg hne]
      exact ih
    · rw [if_neg hc]
      by_cases hc' : p.1 = c'
      · rw [if_pos hc', if_pos hc']
      · rw [if_neg hc', if_neg hc']
        exact ih

theorem getVal_setCell_self (r : Row) (c : String) (v : Value)
    (h : c ∈ r.map Prod.fst) : getVal (setCell r c v) c = v := by
  induction r with
  | nil => simp at h
  | cons p r ih =>
    rw [setCell_cons, getVal_cons]
    by_cases hc : p.1 = c
    · rw [if_pos hc]
      simp [hc]
    · rw [if_neg hc, if_neg hc]
      apply ih
      rcases List.mem_cons.mp h with h1 | h1
      · exact absurd h1.symm hc
      · exact h1

theorem reconcile_cols (t : Table) (es : List (String × Value)) :
    (reconcile t es).cols = t.cols := by
  induction es generalizing t with
  | nil => rfl
  | cons e es ih =>
    show (reconcile (saveCommentT t e.1 e.2) es).cols = t.cols
    rw [ih]
    rfl

theorem reconcile_rows_map (t : Table) (es : List (String × Value)) :
    (reconcile t es).rows = t.rows.map (applyEdits es) := by
  induction es generalizing t with
  | nil =>
    show t.rows = t.rows.map (fun r => r)
    rw [List.map_id']
  | cons e es ih =>
    show (reconcile (saveCommentT t e.1 e.2) es).rows = _
    rw [ih]
    show (saveComment t.rows e.1 e.2).map (applyEdits es) = _
    rw [saveComment, List.map_map]
    rfl

theorem applyEdits_taskName (es : List (String × Value)) (r : Row) :
    getVal (applyEdits es r) "Task Name" = getVal r "Task Name" := by
  induction es generalizing r with
  | nil => rfl
  | cons e es ih =>
    show getVal (applyEdits es
      (if getVal r "Task Name" = e.1 then setCell r "Comments" e.2 else r)) "Task Name" = _
    rw [ih]
    by_cases h : getVal r "Task Name" = e.1
    · rw [if_pos h]
      exact getVal_setCell_ne r "Comments" "Task Name" e.2 (by decide)
    · rw [if_neg h]

theorem applyEdits_of_not_mem (es : List (String × Value)) (r : Row)
    (h : ∀ e ∈ es, getVal r "Task Name" ≠ e.1) : applyEdits es r = r := by
  induction es with
  | nil => rfl
  | cons e es ih =>
    show applyEdits es
      (if getVal r "Task Name" = e.1 then setCell r "Comments" e.2 else r) = r
    rw [if_neg (h e (List.mem_cons_self e es))]
    exact ih (fun e' he' => h e' (List.mem_cons_of_mem e he'))

theorem applyEdits_of_mem (es : List (String × Value)) (r : Row) (tn : String) (v : Value)
    (hnd : (es.map Prod.fst).Nodup) (hmem : (tn, v) ∈ es)
    (htn : getVal r "Task Name" = tn) :
    applyEdits es r = setCell r "Comments" v := by
  induction es generalizing r with
  | nil => simp at hmem
  | cons e es ih =>
    have hnd' : e.1 ∉ es.map Prod.fst ∧ (es.map Prod.fst).Nodup := by
      simpa [List.nodup_cons] using hnd
    show applyEdits es
      (if getVal r "Task Name" = e.1 then setCell r "Comments" e.2 else r) = _
    rcases List.mem_cons.mp hmem with he | he
    · subst he
      have hnd1 : tn ∉ es.map Prod.fst := hnd'.1
      show applyEdits es
        (if getVal r "Task Name" = tn then setCell r "Comments" v else r) = _
      rw [if_pos htn]
      apply applyEdits_of_not_mem
      intro e' he'
      rw [getVal_setCell_ne r "Comments" "Task Name" v (by decide), htn]
      intro hcontra
      exact hnd1 (hcontra ▸ List.mem_map_of_mem Prod.fst he')
    · have hne : getVal r "Task Name" ≠ e.1 := by
        rw [htn]
        intro hcontra
        have hm : tn ∈ es.map Prod.fst := List.mem_map_of_mem Prod.fst he
        exact hnd'.1 (hcontra ▸ hm)
      rw [if_neg hne]
      exact ih r hnd'.2 he htn

/-- C2: reconciling an editing session whose entries target valid unique
row identities (Task Names occurring in exactly one row) and the valid
editable column (Comments, present in every row) preserves the row
count, the column list and the row order; the row matching each edit
carries the edited comment, and every other cell is unchanged. -/
theorem C2_reconcile_frame (t : Table) (es : List (String × Value))
    (hnd : (es.map Prod.fst).Nodup)
    (hid : ∀ e ∈ es, (t.rows.filter (fun r => decide (getVal r "Task Name" = e.1))).length = 1)
    (hcm : ∀ r ∈ t.rows, "Comments" ∈ r.map Prod.fst) :
    (reconcile t es).rows.length = t.rows.length ∧
    (reconcile t es).cols = t.cols ∧
    (∀ i r0, t.rows.get? i = some r0 →
      ((∀ e ∈ es, getVal r0 "Task Name" ≠ e.1) →
        (reconcile t es).rows.get? i = some r0) ∧
      (∀ e ∈ es, getVal r0 "Task Name" = e.1 →
        ∃ r1, (reconcile t es).rows.get? i = some r1 ∧
          getVal r1 "Comments" = e.2 ∧
          ∀ c, c ≠ "Comments" → getVal r1 c = getVal r0 c)) := by
  refine ⟨?_, reconcile_cols t es, ?_⟩
  · rw [reconcile_rows_map, List.length_map]
  · intro i r0 h0
    have hmap : (reconcile t es).rows.get? i = some (applyEdits es r0) := by
      rw [reconcile_rows_map, List.get?_map, h0]
      rfl
    have hmem0 : r0 ∈ t.rows := List.get?_mem h0
    constructor
    · intro hnot
      rw [hmap, applyEdits_of_not_mem es r0 hnot]
    · intro e he htn
      have hmem : (e.1, e.2) ∈ es := by simpa using he
      refine ⟨applyEdits es r0, hmap, ?_, ?_⟩
      · rw [applyEdits_of_mem es r0 e.1 e.2 hnd hmem htn]
        exact getVal_setCell_self r0 "Comments" e.2 (hcm r0 hmem0)
      · intro c hc
        rw [applyEdits_of_mem es r0 e.1 e.2 hnd hmem htn]
        exact getVal_setCell_ne r0 "Comments" c e.2 hc

/-- The running example table: four columns, two task rows with distinct
Task Names. -/
def exTable : Table :=
  { cols := ["Task Name", "Assignee", "Status", "Comments"],
    rows :=
      [[("Task Name", "T1"), ("Assignee", "bob"), ("Status", "Pending"), ("Comments", "")],
       [("Task Name", "T2"), ("Assignee", "eve"), ("Status", "Completed"), ("Comments", "ok")]] }

/-- Witness for C2 at the example table with a single pending edit. -/
theorem C2_witness :
    (reconcile exTable [("T1", "done")]).rows.length = exTable.rows.length ∧
    (reconcile exTable [("T1", "done")]).cols = exTable.cols ∧
    (∀ i r0, exTable.rows.get? i = some r0 →
      ((∀ e ∈ [(("T1" : String), ("done" : Value))], getVal r0 "Task Name" ≠ e.1) →
        (reconcile exTable [("T1", "done")]).rows.get? i = some r0) ∧
      (∀ e ∈ [(("T1" : String), ("done" : Value))], getVal r0 "Task Name" = e.1 →
        ∃ r1, (reconcile exTable [("T1", "done")]).rows.get? i = some r1 ∧
          getVal r1 "Comments" = e.2 ∧
          ∀ c, c ≠ "Comments" → getVal r1 c = getVal r0 c)) :=
  C2_reconcile_frame exTable [("T1", "done")] (by decide) (by decide) (by decide)

/-- From `src/app1.py` line 140: the task dropdown offers the Task Names
of the filtered view (`filtered_df["Task Name"].unique()`), not of the
unfiltered sheet. -/
def taskOptions (af sf : List Value) (rows : List Row) : List Value :=
  ((filteredRows af sf rows).map (fun r => getVal r "Task Name")).dedup

/-- A table whose two rows share one Task Name: the natural key the
script edits by is not unique here, and nothing at load time makes it
unique. -/
def dupTable : Table :=
  { cols := ["Task Name", "Comments"],
    rows := [[("Task Name", "A"), ("Comments", "x")],
             [("Task Name", "A"), ("Comments", "y")]] }

/-- C3 counterexample: a single Save Comment edit on a table with a
repeated Task Name changes two rows, not exactly one; and under an
active assignee filter a Task Name of the unfiltered example table is
not among the offered edit keys, so the keys come from the filtered
view. -/
theorem C3_counterexample :
    ((saveCommentT dupTable "A" "z").rows.zip dupTable.rows).countP
        (fun p => decide (p.1 ≠ p.2)) = 2 ∧
    "T2" ∈ exTable.rows.map (fun r => getVal r "Task Name") ∧
    "T2" ∉ taskOptions ["bob"] [] exTable.rows := by
  refine ⟨by decide, by decide, by decide⟩

theorem saveComment_changed_le (rows : List Row) (tn : String) (v : Value) :
    ((saveComment rows tn v).zip rows).countP (fun p => decide (p.1 ≠ p.2)) ≤
      rows.countP (fun r => decide (getVal r "Task Name" = tn)) := by
  induction rows with
  | nil => simp [saveComment]
  | cons r rows ih =>
    show (((if getVal r "Task Name" = tn then setCell r "Comments" v else r) ::
        saveComment rows tn v).zip (r :: rows)).countP _ ≤ _
    rw [List.zip_cons_cons, List.countP_cons, List.countP_cons]
    by_cases h : getVal r "Task Name" = tn
    · rw [if_pos h]
      have h2 : (if decide (getVal r "Task Name" = tn) = true then 1 else 0) = 1 := by
        simp [h]
      have h1 : (if decide ((setCell r "Comments" v, r).1 ≠ (setCell r "Comments" v, r).2)
          = true then 1 else 0) ≤ 1 := by
        split <;> omega
      omega
    · rw [if_neg h]
      have h2 : (if decide (getVal r "Task Name" = tn) = true then 1 else 0) = 0 := by
        simp [h]
      have h1 : (if decide (((r, r) : Row × Row).1 ≠ ((r, r) : Row × Row).2)
          = true then 1 else 0) = 0 := by
        simp
      omega

/-- C3 amended: the script keys rows by the natural Task Name column
(taken from the filtered view), which is not guaranteed unique; a single
Save Comment edit rewrites every row whose Task Name matches, leaves all
other rows untouched, and therefore changes at most one row exactly when
the edited Task Name occurs in exactly one row of the sheet. -/
theorem C3_amended_unique_key_single_row (rows : List Row) (tn : String) (v : Value)
    (h1 : (rows.filter (fun r => decide (getVal r "Task Name" = tn))).length = 1) :
    (saveComment rows tn v).length = rows.length ∧
    ((saveComment rows tn v).zip rows).countP (fun p => decide (p.1 ≠ p.2)) ≤ 1 ∧
    (∀ i r0, rows.get? i = some r0 → getVal r0 "Task Name" ≠ tn →
      (saveComment rows tn v).get? i = some r0) := by
  refine ⟨List.length_map rows _, ?_, ?_⟩
  · calc ((saveComment rows tn v).zip rows).countP (fun p => decide (p.1 ≠ p.2)) ≤
        rows.countP (fun r => decide (getVal r "Task Name" = tn)) :=
          saveComment_changed_le rows tn v
      _ = 1 := by rw [List.countP_eq_length_filter, h1]
  · intro i r0 h0 hne
    rw [saveComment, List.get?_map, h0]
    simp [hne]

/-- Witness for C3 amended at the example table. -/
theorem C3_amended_witness :
    (saveComment exTable.rows "T1" "done").length = exTable.rows.length ∧
    ((saveComment exTable.rows "T1" "done").zip exTable.rows).countP
        (fun p => decide (p.1 ≠ p.2)) ≤ 1 ∧
    (∀ i r0, exTable.rows.get? i = some r0 → getVal r0 "Task Name" ≠ "T1" →
      (saveComment exTable.rows "T1" "done").get? i = some r0) :=
  C3_amended_unique_key_single_row exTable.rows "T1" "done" (by decide)

/-- CSV serialization of one table, as `to_csv(index=False)` renders it:
a header line of the column names, then one line per row with the cells
in column order, comma separated. -/
def toCsv (t : Table) : String :=
  String.intercalate "\n" ((String.intercalate "," t.cols) ::
    t.rows.map (fun r => String.intercalate "," (t.cols.map (fun c => getVal r c))))

/-- Sheet lookup in the workbook, as `sheets_dict[selected_project]`. -/
def lookupSheet (wb : Workbook) (selected : String) : Option Table :=
  (wb.find? (fun p => p.1 = selected)).map Prod.snd

/-- From `src/app1.py` lines 188-194: the download button serializes
`sheets_dict[selected_project]` alone, to CSV.  The payload carries one
sheet. -/
def downloadData (wb : Workbook) (selected : String) : Option (String × String) :=
  (lookupSheet wb selected).map (fun t => (selected, toCsv t))

/-- The sheet names covered by the export payload. -/
def exportedSheetNames (wb : Workbook) (selected : String) : List String :=
  ((downloadData wb selected).map (fun p => [p.1])).getD []

/-- A two-sheet workbook. -/
def exWorkbook : Workbook := [("A", dupTable), ("B", exTable)]

/-- C5 counterexample: on a workbook with sheets A and B, exporting with
sheet A selected covers only sheet A, so the exported sheet set differs
from the sheet set of the loaded workbook. -/
theorem C5_counterexample :
    "B" ∈ exWorkbook.map Prod.fst ∧ "B" ∉ exportedSheetNames exWorkbook "A" := by
  exact ⟨by decide, by decide⟩

/-- C5 amended: the export deterministically serializes exactly the
currently selected sheet, as that single sheet rendered to CSV; no other
sheet of the workbook is part of the payload. -/
theorem C5_amended_export_selected_only (wb : Workbook) (selected : String) (t : Table)
    (h : lookupSheet wb selected = some t) :
    downloadData wb selected = some (selected, toCsv t) ∧
    exportedSheetNames wb selected = [selected] := by
  constructor
  · rw [downloadData, h]
    rfl
  · rw [exportedSheetNames, downloadData, h]
    rfl

/-- Witness for C5 amended on the two-sheet workbook. -/
theorem C5_amended_witness :
    downloadData exWorkbook "A" = some ("A", toCsv dupTable) ∧
    exportedSheetNames exWorkbook "A" = ["A"] :=
  C5_amended_export_selected_only exWorkbook "A" dupTable (by decide)

/-- From `src/app1.py` lines 53-55: the key metrics over the filtered
view. -/
def total_tasks (rows : List Row) : Nat := rows.length

def completed_tasks (rows : List Row) : Nat :=
  (rows.filter (fun r => decide (getVal r "Status" = "Completed"))).length

def pending_tasks (rows : List Row) : Nat :=
  (rows.filter (fun r => decide (getVal r "Status" ≠ "Completed"))).length

/-- From `src/app1.py` lines 101-108: the three task lists by status. -/
def completed_tasks_list (rows : List Row) : List Row :=
  rows.filter (fun r => decide (getVal r "Status" = "Completed"))

def in_process_tasks_list (rows : List Row) : List Row :=
  rows.filter (fun r => decide (getVal r "Status" = "In process"))

def pending_tasks_list (rows : List Row) : List Row :=
  rows.filter (fun r => decide (getVal r "Status" = "Pending"))

/-- C9: on every filtered view the metrics satisfy Completed + Pending =
Total, because the pending count is the number of rows whose Status
differs from Completed; rows with status In process are counted in the
Pending metric although the task lists show them as a separate third
category (they never appear in the Pending list). -/
theorem C9_metrics_partition (af sf : List Value) (rows : List Row) :
    completed_tasks (filteredRows af sf rows) + pending_tasks (filteredRows af sf rows) =
      total_tasks (filteredRows af sf rows) ∧
    (in_process_tasks_list (filteredRows af sf rows)).length ≤
      pending_tasks (filteredRows af sf rows) ∧
    (∀ r ∈ in_process_tasks_list (filteredRows af sf rows),
      getVal r "Status" ≠ "Completed" ∧
        r ∉ pending_tasks_list (filteredRows af sf rows)) := by
  refine ⟨?_, ?_, ?_⟩
  · rw [completed_tasks, pending_tasks, total_tasks,
      ← List.countP_eq_length_filter, ← List.countP_eq_length_filter]
    have hpq : (fun r => decide (getVal r "Status" ≠ "Completed")) =
        (fun r => decide (¬ (decide (getVal r "Status" = "Completed") = true))) := by
      funext r
      simp
    rw [hpq]
    exact (List.length_eq_countP_add_countP
      (fun r => decide (getVal r "Status" = "Completed")) _).symm
  · rw [in_process_tasks_list, pending_tasks,
      ← List.countP_eq_length_filter, ← List.countP_eq_length_filter]
    apply List.countP_mono_left
    intro r _ hp
    simp only [decide_eq_true_eq] at hp ⊢
    rw [hp]
    decide
  · intro r hr
    have hm := List.mem_filter.mp hr
    have hp : getVal r "Status" = "In process" := by
      simpa using hm.2
    constructor
    · rw [hp]
      decide
    · intro hmem
      have hm2 := (List.mem_filter.mp hmem).2
      rw [hp] at hm2
      simp at hm2

/-- Witness for C9 at the example table under the empty filter. -/
theorem C9_witness :
    completed_tasks (filteredRows [] [] exTable.rows) +
        pending_tasks (filteredRows [] [] exTable.rows) =
      total_tasks (filteredRows [] [] exTable.rows) ∧
    (in_process_tasks_list (filteredRows [] [] exTable.rows)).length ≤
      pending_tasks (filteredRows [] [] exTable.rows) ∧
    (∀ r ∈ in_process_tasks_list (filteredRows [] [] exTable.rows),
      getVal r "Status" ≠ "Completed" ∧
        r ∉ pending_tasks_list (filteredRows [] [] exTable.rows)) :=
  C9_metrics_partition [] [] exTable.rows

/-- From `src/app1.py` lines 38-39: right after the sheet is selected and
before any filter, metric, edit or export, a Comments column is appended
with every cell the empty string whenever the sheet lacks one. -/
def ensureComments (t : Table) : Table :=
  if "Comments" ∈ t.cols then t
  else { cols := t.cols ++ ["Comments"],
         rows := t.rows.map (fun r => r ++ [("Comments", "")]) }

theorem getVal_append_of_not_mem (r1 r2 : Row) (c : String)
    (h : c ∉ r1.map Prod.fst) : getVal (r1 ++ r2) c = getVal r2 c := by
  induction r1 with
  | nil => rfl
  | cons p r1 ih =>
    rw [List.cons_append, getVal_cons]
    have hne : p.1 ≠ c := by
      intro hc
      exact h (List.mem_cons.mpr (Or.inl hc.symm))
    rw [if_neg hne]
    exact ih (fun hc => h (List.mem_cons.mpr (Or.inr hc)))

/-- C10: after sheet selection the table always carries a Comments
column: when the uploaded sheet already has one it is left untouched,
otherwise the column is appended with every cell the empty string; and
every row reaching a downstream filtered view carries the Comments
key. -/
theorem C10_comments_always_present (t : Table) (af sf : List Value)
    (hkeys : ∀ r ∈ t.rows, r.map Prod.fst = t.cols) :
    "Comments" ∈ (ensureComments t).cols ∧
    ("Comments" ∈ t.cols → ensureComments t = t) ∧
    ("Comments" ∉ t.cols →
      (ensureComments t).cols = t.cols ++ ["Comments"] ∧
      (ensureComments t).rows.length = t.rows.length ∧
      ∀ r ∈ (ensureComments t).rows, getVal r "Comments" = "") ∧
    (∀ r ∈ filteredRows af sf (ensureComments t).rows,
      "Comments" ∈ r.map Prod.fst) := by
  have hall : ∀ r ∈ (ensureComments t).rows, "Comments" ∈ r.map Prod.fst := by
    intro r hr
    by_cases hmem : "Comments" ∈ t.cols
    · rw [ensureComments, if_pos hmem] at hr
      rw [hkeys r hr]
      exact hmem
    · rw [ensureComments, if_neg hmem] at hr
      rcases List.mem_map.mp hr with ⟨r0, _, hr0⟩
      rw [← hr0, List.map_append]
      exact List.mem_append.mpr (Or.inr (List.mem_cons.mpr (Or.inl rfl)))
  refine ⟨?_, ?_, ?_, ?_⟩
  · by_cases hmem : "Comments" ∈ t.cols
    · rw [ensureComments, if_pos hmem]
      exact hmem
    · rw [ensureComments, if_neg hmem]
      exact List.mem_append.mpr (Or.inr (List.mem_cons.mpr (Or.inl rfl)))
  · intro hmem
    rw [ensureComments, if_pos hmem]
  · intro hmem
    rw [ensureComments, if_neg hmem]
    refine ⟨rfl, List.length_map t.rows _, ?_⟩
    intro r hr
    rcases List.mem_map.mp hr with ⟨r0, hr0m, hr0⟩
    rw [← hr0]
    rw [getVal_append_of_not_mem r0 [("Comments", "")] "Comments"
      (by rw [hkeys r0 hr0m]; exact hmem)]
    rfl
  · intro r hr
    have hsub : (filteredRows af sf (ensureComments t).rows).Sublist
        (ensureComments t).rows := by
      rw [filteredRows_eq_filter]
      exact List.filter_sublist _
    exact hall r (hsub.mem hr)

/-- A one-column table lacking a Comments column. -/
def smallTable : Table := { cols := ["Task Name"], rows := [[("Task Name", "T1")]] }

/-- Witness for C10 at a table lacking a Comments column. -/
theorem C10_witness :
    "Comments" ∈ (ensureComments smallTable).cols ∧
    ("Comments" ∈ smallTable.cols → ensureComments smallTable = smallTable) ∧
    ("Comments" ∉ smallTable.cols →
      (ensureComments smallTable).cols = smallTable.cols ++ ["Comments"] ∧
      (ensureComments smallTable).rows.length = smallTable.rows.length ∧
      ∀ r ∈ (ensureComments smallTable).rows, getVal r "Comments" = "") ∧
    (∀ r ∈ filteredRows [] [] (ensureComments smallTable).rows,
      "Comments" ∈ r.map Prod.fst) :=
  C10_comments_always_present smallTable [] [] (by decide)

/-- Column kinds of the spec data model: text, number, date, or an enum
with a fixed list of allowed values. -/
inductive ColKind
  | text
  | number
  | date
  | enumOf (allowed : List Value)
  deriving DecidableEq

/-- A declared column: a name and a kind. -/
structure ColumnSpec where
  name : String
  kind : ColKind
  deriving DecidableEq

/-- The failure kinds of recording an edit. -/
inductive EditError
  | invalidColumn
  | invalidValue
  deriving DecidableEq

/-- Pending edits keyed by (row identity, column name). -/
abbrev EditSet := List ((String × String) × Value)

/-- Reads a pending edit back. -/
def getEdit (es : EditSet) (rowId colName : String) : Option Value :=
  (es.find? (fun e => e.1 = (rowId, colName))).map Prod.snd

/-- Modelled from the spec: the missing `EditSet.set` operation.  It
records or overwrites a pending edit, fails with `InvalidColumnError`
when the named column is not a column of the target table, and fails
with `InvalidValueError` when the named column is an enum column and the
value is not among its allowed values.  `src/app1.py` has no edit
validation code: its only edit path is an unvalidated Comments text
box. -/
def setEdit (cols : List ColumnSpec) (es : EditSet)
    (rowId colName : String) (v : Value) : Except EditError EditSet :=
  match cols.find? (fun c => c.name = colName) with
  | none => Except.error EditError.invalidColumn
  | some c =>
    match c.kind with
    | ColKind.enumOf allowed =>
      if v ∈ allowed then
        Except.ok (((rowId, colName), v) :: es.filter (fun e => decide (e.1 ≠ (rowId, colName))))
      else Except.error EditError.invalidValue
    | _ => Except.ok (((rowId, colName), v) :: es.filter (fun e => decide (e.1 ≠ (rowId, colName))))

/-- C6: recording an edit fails with InvalidColumnError exactly when the
named column is absent from the table, fails with InvalidValueError when
the column is an enum column and the value is not allowed, and otherwise
records or overwrites the pending edit. -/
theorem C6_setEdit_validation (cols : List ColumnSpec) (es : EditSet)
    (rowId colName : String) (v : Value) :
    ((∀ c ∈ cols, c.name ≠ colName) →
      setEdit cols es rowId colName v = Except.error EditError.invalidColumn) ∧
    (∀ c allowed, cols.find? (fun c => c.name = colName) = some c →
      c.kind = ColKind.enumOf allowed → v ∉ allowed →
      setEdit cols es rowId colName v = Except.error EditError.invalidValue) ∧
    (∀ c, cols.find? (fun c => c.name = colName) = some c →
      (∀ allowed, c.kind = ColKind.enumOf allowed → v ∈ allowed) →
      ∃ es2, setEdit cols es rowId colName v = Except.ok es2 ∧
        getEdit es2 rowId colName = some v) := by
  refine ⟨?_, ?_, ?_⟩
  · intro hnone
    have hfind : cols.find? (fun c => c.name = colName) = none := by
      rw [List.find?_eq_none]
      intro c hc
      simpa using hnone c hc
    rw [setEdit, hfind]
  · intro c allowed hfind hkind hv
    simp [setEdit, hfind, hkind, hv]
  · intro c hfind henum
    have hok : getEdit (((rowId, colName), v) ::
          es.filter (fun e => decide (e.1 ≠ (rowId, colName)))) rowId colName = some v := by
      rw [getEdit]
      simp [List.find?]
    refine ⟨((rowId, colName), v) :: es.filter (fun e => decide (e.1 ≠ (rowId, colName))),
      ?_, hok⟩
    cases hkind : c.kind with
    | enumOf allowed => simp [setEdit, hfind, hkind, henum allowed hkind]
    | text => simp [setEdit, hfind, hkind]
    | number => simp [setEdit, hfind, hkind]
    | date => simp [setEdit, hfind, hkind]

/-- A status column with three allowed values, as the dashboard colors
expect. -/
def statusColumn : ColumnSpec :=
  { name := "Status", kind := ColKind.enumOf ["Completed", "In process", "Pending"] }

/-- Witness for C6 on a table with a Status enum column. -/
theorem C6_witness :
    ((∀ c ∈ [statusColumn], c.name ≠ "Status") →
      setEdit [statusColumn] [] "T1" "Status" "Completed" =
        Except.error EditError.invalidColumn) ∧
    (∀ c allowed, [statusColumn].find? (fun c => c.name = "Status") = some c →
      c.kind = ColKind.enumOf allowed → "Completed" ∉ allowed →
      setEdit [statusColumn] [] "T1" "Status" "Completed" =
        Except.error EditError.invalidValue) ∧
    (∀ c, [statusColumn].find? (fun c => c.name = "Status") = some c →
      (∀ allowed, c.kind = ColKind.enumOf allowed → "Completed" ∈ allowed) →
      ∃ es2, setEdit [statusColumn] [] "T1" "Status" "Completed" = Except.ok es2 ∧
        getEdit es2 "T1" "Status" = some "Completed") :=
  C6_setEdit_validation [statusColumn] [] "T1" "Status" "Completed"

/-- The failure kind of sheet creation. -/
inductive SheetError
  | duplicateName
  deriving DecidableEq

/-- Modelled from the spec: the missing `Workbook.addSheet` operation.
It creates a new sheet copying the source table columns with zero rows,
appended in insertion order, and fails with `DuplicateNameError` when
the requested name already exists in the workbook or is empty.
`src/app1.py` has no sheet-creation code. -/
def addSheet (wb : Workbook) (name : String) (sourceTable : Table) :
    Except SheetError Workbook :=
  if name = "" ∨ name ∈ wb.map Prod.fst then Except.error SheetError.duplicateName
  else Except.ok (wb ++ [(name, { cols := sourceTable.cols, rows := [] })])

/-- C7: adding a sheet copies the source columns with zero rows, fails
with DuplicateNameError on an existing or empty name, and in particular
a second addition of the same name always fails with
DuplicateNameError. -/
theorem C7_addSheet_duplicate (wb : Workbook) (name : String) (srcT otherT : Table) :
    ((name = "" ∨ name ∈ wb.map Prod.fst) →
      addSheet wb name srcT = Except.error SheetError.duplicateName) ∧
    (¬(name = "" ∨ name ∈ wb.map Prod.fst) →
      addSheet wb name srcT =
        Except.ok (wb ++ [(name, { cols := srcT.cols, rows := [] })])) ∧
    (∀ wb2, addSheet wb name srcT = Except.ok wb2 →
      addSheet wb2 name otherT = Except.error SheetError.duplicateName) := by
  refine ⟨?_, ?_, ?_⟩
  · intro h
    rw [addSheet, if_pos h]
  · intro h
    rw [addSheet, if_neg h]
  · intro wb2 hok
    by_cases h : name = "" ∨ name ∈ wb.map Prod.fst
    · rw [addSheet, if_pos h] at hok
      exact absurd hok (by simp)
    · rw [addSheet, if_neg h] at hok
      have hwb2 : wb2 = wb ++ [(name, { cols := srcT.cols, rows := [] })] := by
        simpa using hok.symm
      have hmem : name ∈ wb2.map Prod.fst := by
        rw [hwb2, List.map_append]
        exact List.mem_append.mpr (Or.inr (List.mem_cons.mpr (Or.inl rfl)))
      rw [addSheet, if_pos (Or.inr hmem)]

/-- Witness for C7: adding NewProj to the two-sheet workbook succeeds,
and adding NewProj again to the result fails with DuplicateNameError. -/
theorem C7_witness :
    ((("NewProj" : String) = "" ∨ "NewProj" ∈ exWorkbook.map Prod.fst) →
      addSheet exWorkbook "NewProj" exTable = Except.error SheetError.duplicateName) ∧
    (¬(("NewProj" : String) = "" ∨ "NewProj" ∈ exWorkbook.map Prod.fst) →
      addSheet exWorkbook "NewProj" exTable =
        Except.ok (exWorkbook ++ [("NewProj", { cols := exTable.cols, rows := [] })])) ∧
    (∀ wb2, addSheet exWorkbook "NewProj" exTable = Except.ok wb2 →
      addSheet wb2 "NewProj" dupTable = Except.error SheetError.duplicateName) :=
  C7_addSheet_duplicate exWorkbook "NewProj" exTable dupTable
